import Mathlib

/-!
# `MqttException` of the Mosquitto test client

A shallow embedding of `uat/custom-components/client-mosquitto-c/src/MqttException.h`
and the properties of the exception class it declares.

The header declares one class,

    class MqttException : public ClientException {
    public:
        MqttException(const char * message, int code)
            : ClientException(message, code) {}
        ~MqttException() {}
    };

Conventions of the embedding:

* a `const char *` message is represented by the text it points to, a `String`;
* an `int` code is represented by an `Int`; the header does no arithmetic on
  it, so every statement below that holds for all `Int` holds for all `int`;
* a constructor call that may leave by an exception returns `Except ε _`,
  where `ε` is the type of whatever the callee throws;
* the destructor `~MqttException() {}` has an empty body and is not embedded:
  no statement below concerns destruction.
-/

namespace MosquittoTestClient

/-! ## The base class -/

/-- Modelled from the spec: the base class `ClientException`, declared in
`ClientException.h`, which the header includes but which is not among the
sources. The spec describes it as "a base error capability providing
`message()`/`code()` storage and retrieval": an immutable text `message` and an
integer `code`. The two projections are its accessors `message()` and `code()`. -/
structure ClientException where
  message : String
  code : Int
  deriving DecidableEq, Repr

/-- Modelled from the spec: the constructor `ClientException(message, code)` of
the absent base class, "construction from `(Text, Integer)`" that "always
succeeds" and stores both arguments for later retrieval. -/
def ClientException.ctor (ε : Type) (message : String) (code : Int) :
    Except ε ClientException :=
  Except.ok { message := message, code := code }

/-! ## The class declared by the header -/

/-- The class `MqttException : public ClientException`. Its body declares no
data member, so an object consists of its `ClientException` base subobject
alone; `MqttException.toClientException` is the derived-to-base conversion. -/
structure MqttException extends ClientException
  deriving DecidableEq, Repr

/-- The constructor
`MqttException(const char * message, int code) : ClientException(message, code) {}`.

The mem-initializer runs the base-class constructor on `(message, code)`; an
exception leaving it leaves the derived constructor as well. The body `{}` then
does nothing and the object is complete. The base-class constructor is the
parameter `baseCtor`, its definition being outside the header. -/
def MqttException.ctor {ε : Type} (baseCtor : String → Int → Except ε ClientException)
    (message : String) (code : Int) : Except ε MqttException := do
  let base ← baseCtor message code
  pure { toClientException := base }

/-! ## Member functions callable on a constructed object

The class body declares a constructor and a destructor and nothing else: no
member function, no assignment, no override. The member functions that can be
called on a live `MqttException` are therefore exactly the inherited accessors. -/

/-- Names of the member functions callable on a constructed `MqttException`:
the two accessors inherited from `ClientException`. The header adds none. -/
inductive Accessor where
  | message
  | code
  deriving DecidableEq, Repr

/-- What an accessor call returns: the text of `message()` or the integer of
`code()`. -/
inductive Value where
  | text (s : String)
  | int (n : Int)
  deriving DecidableEq, Repr

/-- Modelled from the spec: one accessor call on the absent base class,
"pure, side-effect-free reads of the immutable fields". In state-passing form
the call returns the object as it is after the call, and the value read. -/
def ClientException.call (self : ClientException) : Accessor → ClientException × Value
  | Accessor.message => (self, Value.text self.message)
  | Accessor.code => (self, Value.int self.code)

/-- One accessor call on an `MqttException`. The class overrides nothing, so
the call runs the inherited member function on the base subobject; the object
after the call is that base subobject and no further member. -/
def MqttException.call (self : MqttException) (a : Accessor) : MqttException × Value :=
  let r := self.toClientException.call a
  ({ toClientException := r.1 }, r.2)

/-- A sequence of accessor calls on one object, in order: the object after the
last call and the values read, first call first. -/
def MqttException.calls (self : MqttException) : List Accessor → MqttException × List Value
  | [] => (self, [])
  | a :: rest =>
    let r := self.call a
    let rs := MqttException.calls r.1 rest
    (rs.1, r.2 :: rs.2)

/-! ## Throwing and catching

The classes named in the header, and how a handler selects an exception object
by its class. -/

/-- The two classes the header names. -/
inductive ClassId where
  | ClientException
  | MqttException
  deriving DecidableEq, Repr

/-- Direct public base class, as far as the header declares it:
`class MqttException : public ClientException`. The bases of `ClientException`
are declared outside the header. -/
def ClassId.publicBase : ClassId → Option ClassId
  | ClassId.MqttException => some ClassId.ClientException
  | ClassId.ClientException => none

/-- An exception object in flight: the value thrown together with the class it
was thrown as (`throw ClientException(..)` or `throw MqttException(..)`). -/
inductive ExceptionObject where
  | client (e : ClientException)
  | mqtt (e : MqttException)
  deriving DecidableEq, Repr

/-- The class an exception object was thrown as. -/
def ExceptionObject.classId : ExceptionObject → ClassId
  | ExceptionObject.client _ => ClassId.ClientException
  | ExceptionObject.mqtt _ => ClassId.MqttException

/-- The exception object seen through a `ClientException &`: the object itself,
or the base subobject of an `MqttException`. -/
def ExceptionObject.asClientException : ExceptionObject → ClientException
  | ExceptionObject.client e => e
  | ExceptionObject.mqtt e => e.toClientException

/-- A handler `catch (H &)` matches an exception object of class `E` when `H`
is `E` or a public base class of `E`. -/
def handlerMatches (handler thrown : ClassId) : Bool :=
  handler == thrown || thrown.publicBase == some handler

/-- The handler of a try block that receives the exception object: the first
one, in the order written, that matches its class; `none` when the exception
passes through the block. -/
def selectHandler (handlers : List ClassId) (x : ExceptionObject) : Option ClassId :=
  handlers.find? (fun h => handlerMatches h x.classId)

/-! ## Auxiliary lemmas -/

/-- The derived constructor is the base constructor followed by wrapping the
base subobject. -/
theorem MqttException.ctor_eq_map {ε : Type}
    (baseCtor : String → Int → Except ε ClientException)
    (message : String) (code : Int) :
    MqttException.ctor baseCtor message code
      = (baseCtor message code).map (fun b => { toClientException := b }) := by
  unfold MqttException.ctor
  cases baseCtor message code <;> rfl

/-- When the base constructor returns `b`, the derived constructor returns the
object whose base subobject is `b`. -/
theorem MqttException.ctor_of_ok {ε : Type}
    (baseCtor : String → Int → Except ε ClientException)
    (message : String) (code : Int) (b : ClientException)
    (h : baseCtor message code = Except.ok b) :
    MqttException.ctor baseCtor message code = Except.ok { toClientException := b } := by
  rw [MqttException.ctor_eq_map, h]
  rfl

/-- When the base constructor throws `err`, so does the derived constructor. -/
theorem MqttException.ctor_of_error {ε : Type}
    (baseCtor : String → Int → Except ε ClientException)
    (message : String) (code : Int) (err : ε)
    (h : baseCtor message code = Except.error err) :
    MqttException.ctor baseCtor message code = Except.error err := by
  rw [MqttException.ctor_eq_map, h]
  rfl

/-- Over the base constructor of the spec, construction returns the object
holding the two arguments. -/
theorem MqttException.ctor_spec_base {ε : Type} (message : String) (code : Int) :
    MqttException.ctor (ClientException.ctor ε) message code
      = Except.ok { toClientException := { message := message, code := code } } :=
  MqttException.ctor_of_ok _ message code _ rfl

/-- An accessor call leaves the object as it was. -/
theorem MqttException.call_fst (e : MqttException) (a : Accessor) : (e.call a).1 = e := by
  cases a <;> rfl

/-- A sequence of accessor calls leaves the object as it was. -/
theorem MqttException.calls_fst (e : MqttException) (reads : List Accessor) :
    (e.calls reads).1 = e := by
  induction reads with
  | nil => rfl
  | cons a rest ih =>
    simp only [MqttException.calls, MqttException.call_fst]
    exact ih

/-- A sequence of accessor calls reads, at each position, what a single call of
that accessor reads on the object as constructed. -/
theorem MqttException.calls_snd (e : MqttException) (reads : List Accessor) :
    (e.calls reads).2 = reads.map (fun a => (e.call a).2) := by
  induction reads with
  | nil => rfl
  | cons a rest ih =>
    simp only [MqttException.calls, MqttException.call_fst, List.map_cons]
    rw [ih]

/-- The derived-to-base conversion loses nothing. -/
theorem MqttException.toClientException_injective :
    Function.Injective MqttException.toClientException := by
  intro a b h
  cases a
  cases b
  cases h
  rfl

/-! ## Construction -/

/-- C1 (construction round-trip). The constructor hands `(message, code)`, in
that order and unchanged, to the base-class constructor: its outcome is the
outcome of the base constructor on exactly these arguments, wrapped as the base
subobject. Over the base class of the spec, which stores what it is given, the
constructed object therefore reads back `message` and `code`; in particular
`MqttException("connection refused", 111)` reads back "connection refused"
and 111. -/
theorem MqttException.ctor_roundtrip (ε : Type) (message : String) (code : Int) :
    (∀ baseCtor : String → Int → Except ε ClientException,
        MqttException.ctor baseCtor message code
          = (baseCtor message code).map (fun b => { toClientException := b })) ∧
    (∃ e : MqttException,
        MqttException.ctor (ClientException.ctor ε) message code = Except.ok e ∧
        e.toClientException = { message := message, code := code } ∧
        e.message = message ∧ e.code = code) ∧
    (∃ e : MqttException,
        MqttException.ctor (ClientException.ctor ε) "connection refused" 111 = Except.ok e ∧
        e.message = "connection refused" ∧ e.code = 111) :=
  ⟨fun baseCtor => MqttException.ctor_eq_map baseCtor message code,
   ⟨_, MqttException.ctor_spec_base message code, rfl, rfl, rfl⟩,
   ⟨_, MqttException.ctor_spec_base "connection refused" 111, rfl, rfl⟩⟩

/-- C2 (construction is total, no validation). For every base-class
constructor, every message and every code: when the base constructor succeeds
on `(message, code)` with base object `b`, the derived constructor returns the
object made of `b` and takes no error branch. The derived constructor adds no
failure condition of its own: on any arguments, an exception leaving it is the
one that left the base constructor on the same arguments. -/
theorem MqttException.ctor_total {ε : Type}
    (baseCtor : String → Int → Except ε ClientException)
    (message : String) (code : Int) (b : ClientException)
    (h : baseCtor message code = Except.ok b) :
    MqttException.ctor baseCtor message code = Except.ok { toClientException := b } ∧
    (∀ err : ε, MqttException.ctor baseCtor message code ≠ Except.error err) ∧
    (∀ (message' : String) (code' : Int) (err : ε),
        MqttException.ctor baseCtor message' code' = Except.error err ↔
          baseCtor message' code' = Except.error err) := by
  have hok := MqttException.ctor_of_ok baseCtor message code b h
  refine ⟨hok, ?_, ?_⟩
  · intro err herr
    rw [hok] at herr
    cases herr
  · intro message' code' err
    constructor
    · intro herr
      cases hb : baseCtor message' code' with
      | error err' =>
        rw [MqttException.ctor_of_error baseCtor message' code' err' hb] at herr
        cases herr
        rfl
      | ok b' =>
        rw [MqttException.ctor_of_ok baseCtor message' code' b' hb] at herr
        cases herr
    · exact MqttException.ctor_of_error baseCtor message' code' err

/-- Witness of C2: over the base constructor of the spec, the empty message
with a negative code constructs. -/
theorem MqttException.ctor_total_witness :
    ClientException.ctor String "" (-1) = Except.ok { message := "", code := -1 } ∧
    (MqttException.ctor (ClientException.ctor String) "" (-1)
        = Except.ok { toClientException := { message := "", code := -1 } } ∧
      (∀ err : String,
        MqttException.ctor (ClientException.ctor String) "" (-1) ≠ Except.error err) ∧
      (∀ (message' : String) (code' : Int) (err : String),
        MqttException.ctor (ClientException.ctor String) message' code' = Except.error err ↔
          ClientException.ctor String message' code' = Except.error err)) :=
  ⟨rfl, MqttException.ctor_total (ClientException.ctor String) "" (-1)
    { message := "", code := -1 } rfl⟩

/-! ## Substitutability and discrimination by class -/

/-- C3 (substitutability). `MqttException` has `ClientException` as public base
class, so a handler written for `ClientException` receives every thrown
`MqttException`. For every base-class constructor and every `(message, code)`,
the constructed `MqttException` converted to its base is the `ClientException`
constructed directly from `(message, code)`, with the same outcome when the
base constructor throws; hence the message and the code read through the base
interface are those of the direct construction. -/
theorem MqttException.upcast_eq_base_construction {ε : Type}
    (baseCtor : String → Int → Except ε ClientException)
    (message : String) (code : Int) :
    ClassId.publicBase ClassId.MqttException = some ClassId.ClientException ∧
    (∀ e : MqttException,
        handlerMatches ClassId.ClientException (ExceptionObject.mqtt e).classId = true) ∧
    (MqttException.ctor baseCtor message code).map MqttException.toClientException
      = baseCtor message code ∧
    (MqttException.ctor baseCtor message code).map
        (fun e => ((ExceptionObject.mqtt e).asClientException.message,
                   (ExceptionObject.mqtt e).asClientException.code))
      = (baseCtor message code).map
        (fun b => ((ExceptionObject.client b).asClientException.message,
                   (ExceptionObject.client b).asClientException.code)) := by
  refine ⟨rfl, fun _ => rfl, ?_, ?_⟩
  · rw [MqttException.ctor_eq_map]
    cases baseCtor message code <;> rfl
  · rw [MqttException.ctor_eq_map]
    cases baseCtor message code <;> rfl

/-- C4 (type-tag distinctness). For every `(message, code)` and every
`(message2, code2)`: the thrown `MqttException` and the thrown plain
`ClientException` carrying the same message and code look the same through the
base interface, yet a handler for `MqttException` matches the first and not the
second, and a try block with an MQTT handler followed by a generic one routes
the first to the MQTT handler and the second to the generic one. The handler
selected depends on the class alone: with any list of handlers, changing the
content to `(message2, code2)` selects the same handler. -/
theorem handler_distinguishes_by_class (message : String) (code : Int)
    (message2 : String) (code2 : Int) (handlers : List ClassId) :
    (ExceptionObject.mqtt { toClientException := { message := message, code := code } }).asClientException
      = (ExceptionObject.client { message := message, code := code }).asClientException ∧
    handlerMatches ClassId.MqttException
      (ExceptionObject.mqtt { toClientException := { message := message, code := code } }).classId
        = true ∧
    handlerMatches ClassId.MqttException
      (ExceptionObject.client { message := message, code := code }).classId = false ∧
    selectHandler [ClassId.MqttException, ClassId.ClientException]
      (ExceptionObject.mqtt { toClientException := { message := message, code := code } })
        = some ClassId.MqttException ∧
    selectHandler [ClassId.MqttException, ClassId.ClientException]
      (ExceptionObject.client { message := message, code := code })
        = some ClassId.ClientException ∧
    selectHandler handlers
      (ExceptionObject.mqtt { toClientException := { message := message, code := code } })
        = selectHandler handlers
      (ExceptionObject.mqtt { toClientException := { message := message2, code := code2 } }) ∧
    selectHandler handlers (ExceptionObject.client { message := message, code := code })
        = selectHandler handlers (ExceptionObject.client { message := message2, code := code2 }) :=
  ⟨rfl, rfl, rfl, rfl, rfl, rfl, rfl⟩

/-! ## Immutability and absence of hidden state -/

/-- C5 (immutability). The class declares no member function besides its
constructor and destructor, so the only calls on a constructed object are the
inherited accessors. For every object and every sequence of such calls, the
object after the calls is the object before them, and each call reads what a
first call of the same accessor reads. For the object constructed from
`(message, code)` over the base class of the spec, every `message()` call reads
`message` and every `code()` call reads `code`. -/
theorem MqttException.calls_immutable (ε : Type) (message : String) (code : Int)
    (reads : List Accessor) :
    (∀ e : MqttException,
        (e.calls reads).1 = e ∧ (e.calls reads).2 = reads.map (fun a => (e.call a).2)) ∧
    (MqttException.ctor (ClientException.ctor ε) message code).map (fun e => e.calls reads)
      = Except.ok
          ({ toClientException := { message := message, code := code } },
           reads.map (fun a =>
             match a with
             | Accessor.message => Value.text message
             | Accessor.code => Value.int code)) := by
  refine ⟨fun e => ⟨MqttException.calls_fst e reads, MqttException.calls_snd e reads⟩, ?_⟩
  rw [MqttException.ctor_spec_base]
  show Except.ok _ = Except.ok _
  congr 1
  refine Prod.ext (MqttException.calls_fst _ reads) ?_
  rw [MqttException.calls_snd]
  apply List.map_congr_left
  intro a _
  cases a <;> rfl

/-- C6 (no hidden state). An `MqttException` has no member besides its base
subobject: rebuilding it from its base part gives it back, and the conversion
to `ClientException` is injective. Two `MqttException` values are equal exactly
when their messages and their codes are equal, and over the base class of the
spec `MqttException(m1, c1)` and `MqttException(m2, c2)` are equal exactly when
`m1 = m2` and `c1 = c2`. -/
theorem MqttException.no_hidden_state (ε : Type) :
    (∀ e : MqttException, ({ toClientException := e.toClientException } : MqttException) = e) ∧
    Function.Injective MqttException.toClientException ∧
    (∀ e1 e2 : MqttException, e1 = e2 ↔ e1.message = e2.message ∧ e1.code = e2.code) ∧
    (∀ (m1 : String) (c1 : Int) (m2 : String) (c2 : Int),
        MqttException.ctor (ClientException.ctor ε) m1 c1
            = MqttException.ctor (ClientException.ctor ε) m2 c2
          ↔ m1 = m2 ∧ c1 = c2) := by
  refine ⟨fun _ => rfl, MqttException.toClientException_injective, ?_, ?_⟩
  · intro e1 e2
    constructor
    · intro h
      rw [h]
      exact ⟨rfl, rfl⟩
    · rintro ⟨hm, hc⟩
      obtain ⟨⟨m1, c1⟩⟩ := e1
      obtain ⟨⟨m2, c2⟩⟩ := e2
      simp only at hm hc
      rw [hm, hc]
  · intro m1 c1 m2 c2
    rw [MqttException.ctor_spec_base, MqttException.ctor_spec_base]
    constructor
    · intro h
      injection h with h
      injection h with h
      injection h with hm hc
      exact ⟨hm, hc⟩
    · rintro ⟨hm, hc⟩
      rw [hm, hc]

end MosquittoTestClient
